import Mathlib

/-!
Verification of the scholar-rss acquisition pipeline.

Shallow embedding of the Python sources:
  * `src/google_scholar_fetcher.py` (class `EfficientScholarFetcher`)
  * `src/arxiv_fetcher.py`          (class `ArxivFetcher`)
  * `src/qiita_uploader.py`         (class `QiitaUploader`)
  * `src/main.py`                   (function `main`, Semantic Scholar branch)

Conventions used throughout:
  * Python `str` is modelled as Lean `String`, or as `List Char` where the
    code does character-level slicing/splitting (the Qiita-uploader filename
    parsing).
  * Python dicts with `.get(key, default)` access are modelled as total
    functions with the default built in, or as association lists where the
    key set matters.
  * File persistence (`_save_history`, `_save_api_usage`,
    `_save_daily_papers`) is pure I/O mirroring the in-memory state and is
    not modelled; all claims are about the in-memory state and the returned
    values.
  * Outbound HTTP calls are modelled by an environment function from request
    parameters to a response, and each model function returns the list of
    requests it issued, so that "no outbound call" claims are statable.
-/

/-! ## Generic helpers: Python string and list primitives -/

/-- Python `sep.join` / `s.split(c)` splitting on a single character:
`"a_b".split("_") == ["a","b"]`, `"".split("_") == [""]`,
`"a__b".split("_") == ["a","","b"]`. -/
def splitOnChar (c : Char) : List Char → List (List Char)
  | [] => [[]]
  | x :: xs =>
    if x = c then [] :: splitOnChar c xs
    else
      match splitOnChar c xs with
      | [] => [[x]]
      | p :: ps => (x :: p) :: ps

/-- First list leads the second one (pattern found at the very start). -/
def leadsWith : List Char → List Char → Bool
  | [], _ => true
  | _ :: _, [] => false
  | a :: as, b :: bs => a == b && leadsWith as bs

/-- Python `filename.replace(".md", "")`: remove every (leftmost-first,
non-overlapping) occurrence of the three-character pattern `.md`. -/
def removeMd : List Char → List Char
  | [] => []
  | [c] => [c]
  | [c1, c2] => [c1, c2]
  | c1 :: c2 :: c3 :: rest =>
    if c1 = '.' ∧ c2 = 'm' ∧ c3 = 'd' then removeMd rest
    else c1 :: removeMd (c2 :: c3 :: rest)

/-- Python `int(s)` succeeding on the id fields handled here: a non-empty
string of decimal digits.  (Python's `int` also accepts signs, surrounding
whitespace and digit-group underscores; none of those shapes can reach the
two call sites modelled below, which feed it pieces of arXiv identifiers.) -/
def pyIntOk (s : List Char) : Bool :=
  !s.isEmpty && s.all Char.isDigit

/-- Substring occurrence test on character lists. -/
def occursIn (needle : List Char) : List Char → Bool
  | [] => needle.isEmpty
  | c :: rest => leadsWith needle (c :: rest) || occursIn needle rest

/-- Python `needle in hay` on strings: substring test. -/
def strContains (hay needle : String) : Bool :=
  occursIn needle.toList hay.toList

/-- Python `s.lower()` (the inputs handled here are ASCII). -/
def pyLower (s : String) : String :=
  String.mk (s.toList.map Char.toLower)

/-- Stable insertion used by `pySortDesc`: `x` is placed before the first
element not strictly greater than it, so earlier-input elements with equal
keys stay in front. -/
def insertStable {α : Type} (gtB : α → α → Bool) (x : α) : List α → List α
  | [] => [x]
  | y :: ys => if gtB y x then y :: insertStable gtB x ys else x :: y :: ys

/-- Python `list.sort(key=k, reverse=True)`: stable sort, greatest key
first.  `gtB a b` means `k a > k b` strictly. -/
def pySortDesc {α : Type} (gtB : α → α → Bool) : List α → List α
  | [] => []
  | x :: xs => insertStable gtB x (pySortDesc gtB xs)

/-! ## BudgetTracker: `_check_api_limit` / `_increment_api_usage`
(`src/google_scholar_fetcher.py` lines 229-240).

`self.api_usage` is a dict read with `.get(month_key, 0)`; it is modelled
as a total function `String → Nat` that is zero off its key set. -/

/-- Python `_check_api_limit`: reads the usage for the current month key and
returns `(remaining > 0, remaining)` with `remaining = 100 - current_usage`.
It only reads `self.api_usage` (purity is visible in the type: no state is
returned). -/
def checkApiLimit (usage : String → Nat) (monthKey : String) : Bool × Int :=
  let currentUsage := usage monthKey
  let remaining : Int := 100 - (currentUsage : Int)
  (decide (0 < remaining), remaining)

/-- Python `_increment_api_usage`:
`self.api_usage[month_key] = self.api_usage.get(month_key, 0) + 1`. -/
def incrementApiUsage (monthKey : String) (usage : String → Nat) : String → Nat :=
  fun k => if k = monthKey then usage k + 1 else usage k

theorem incrementApiUsage_self (monthKey : String) (u : String → Nat) :
    incrementApiUsage monthKey u monthKey = u monthKey + 1 := by
  simp [incrementApiUsage]

theorem iterate_incrementApiUsage (monthKey : String) (u : String → Nat) :
    ∀ n : Nat, ((incrementApiUsage monthKey)^[n] u) monthKey = u monthKey + n := by
  intro n
  induction n with
  | zero => simp
  | succ k ih =>
    rw [Function.iterate_succ_apply', incrementApiUsage_self, ih]
    omega

/-! ## EfficientScholarFetcher (`src/google_scholar_fetcher.py`)

A SerpApi `organic_results` entry is modelled with exactly the fields the
code reads.  Nested dict presence chains (`"inline_links" in result and
"cited_by" in ... and "total" in ...`) collapse to a single `Option` field;
each entry of `"resources"` is represented by its optional `"link"` value,
and `"publication_info"` by its optional `"summary"` string and optional
`"authors"` name list. -/

structure OrganicResult where
  title : Option String
  link : Option String
  snippet : Option String
  resources : Option (List (Option String))
  citedByTotal : Option Nat
  pubSummary : Option String
  pubAuthors : Option (List (Option String))
deriving DecidableEq

/-- Selected paper record (the `paper_info` dict built by the fetcher). -/
structure PaperS where
  id : String
  title : String
  authors : List String
  year : Option Nat
  citations : Nat
  link : String
  pdfLink : Option String
  snippet : String
  fetchedDate : String
deriving DecidableEq

/-- Python `hashlib.md5(content.encode()).hexdigest()`.  The digest is an
opaque deterministic function of its input string; the pipeline relies only
on that determinism (the digest is never parsed), so it is modelled as an
injective tagging of the input. -/
def md5Hex (s : String) : String := "md5:" ++ s

/-- Python `_get_paper_id`: md5 of title concatenated with link
(`.get` with default `""` on both fields). -/
def getPaperId (r : OrganicResult) : String :=
  md5Hex (r.title.getD "" ++ r.link.getD "")

/-- Python `self.free_domains` (only `arxiv.org` is active; the rest are
commented out in the source). -/
def freeDomains : List String := ["arxiv.org"]

/-- Python `_is_free_paper`: a resource link ending in `.pdf` or containing a
free domain, or the paper link containing a free domain, or the lowered
title containing `arxiv:` or `[arxiv]`. -/
def isFreePaper (r : OrganicResult) : Bool :=
  (match r.resources with
   | some rs =>
     rs.any fun res =>
       match res with
       | some link =>
         let l := pyLower link
         l.endsWith ".pdf" || freeDomains.any (fun d => strContains l d)
       | none => false
   | none => false)
  ||
  (match r.link with
   | some link => freeDomains.any (fun d => strContains (pyLower link) d)
   | none => false)
  ||
  (match r.title with
   | some t =>
     strContains (pyLower t) "arxiv:" || strContains (pyLower t) "[arxiv]"
   | none => false)

/-- Python `_extract_citations`: `inline_links.cited_by.total`, defaulting
to 0 when any level of the chain is missing. -/
def extractCitations (r : OrganicResult) : Nat :=
  r.citedByTotal.getD 0

/-- Word character for the regex word boundary in `_extract_year`. -/
def isWordChar (c : Char) : Bool := c.isAlphanum || c = '_'

/-- Match of the regex `20[1-2]\d` at the head of the list, with the
trailing word boundary checked against the following character. -/
def matchYearAt : List Char → Option Nat
  | c0 :: c1 :: c2 :: c3 :: rest =>
    if (c0 == '2') && (c1 == '0') && ((c2 == '1') || (c2 == '2')) && c3.isDigit
        && (match rest with | [] => true | c4 :: _ => !isWordChar c4) then
      some (2000 + (c2.toNat - 48) * 10 + (c3.toNat - 48))
    else none
  | _ => none

/-- Leftmost match of `\b(20[1-2]\d)\b`, scanning with the previous
character to check the leading word boundary. -/
def findYearGo (prev : Option Char) : List Char → Option Nat
  | [] => none
  | c :: rest =>
    let boundaryOk := match prev with | none => true | some pc => !isWordChar pc
    match (if boundaryOk then matchYearAt (c :: rest) else none) with
    | some y => some y
    | none => findYearGo (some c) rest

/-- Python `_extract_year`: `re.search(r"\b(20[1-2]\d)\b", summary)` over
`publication_info.summary`, `None` when absent or unmatched. -/
def extractYear (r : OrganicResult) : Option Nat :=
  match r.pubSummary with
  | some s => findYearGo none s.toList
  | none => none

/-- Python `_extract_authors`: names of `publication_info.authors` entries
that carry a `name` key. -/
def extractAuthors (r : OrganicResult) : List String :=
  match r.pubAuthors with
  | some l => l.filterMap id
  | none => []

/-- Scan of `_extract_pdf_link` over the resources: first resource link
ending in `.pdf`, else first one containing a free domain. -/
def pdfScan : List (Option String) → Option String
  | [] => none
  | none :: rest => pdfScan rest
  | some link :: rest =>
    if (pyLower link).endsWith ".pdf" then some link
    else if freeDomains.any (fun d => strContains (pyLower link) d) then some link
    else pdfScan rest

/-- Python `_extract_pdf_link`. -/
def extractPdfLink (r : OrganicResult) : Option String :=
  match r.resources with
  | none => none
  | some rs => pdfScan rs

/-- Wall-clock inputs of a run (`datetime.now()` in its various formats). -/
structure Clock where
  today : String
  monthKey : String
  year : Nat
  month : Nat
  day : Nat

/-- Request parameters of a SerpApi `GoogleSearch` call (the fields that
vary between call sites; engine, api key, `hl` and `scisbd` are constants). -/
structure SearchParams where
  q : String
  num : Nat
  asYlo : Nat
  asYhi : Nat
deriving DecidableEq

/-- Outcome of `GoogleSearch(params).get_dict()`: an exception before the
usage increment, a dict without `organic_results`, or the results list. -/
inductive SearchOutcome where
  | raise
  | ok (organic : Option (List OrganicResult))

/-- In-memory state of the fetcher: `self.fetched_papers` (date to id set,
the set modelled as a deduplicated list) and `self.api_usage`. -/
structure ScholarState where
  fetchedPapers : List (String × List String)
  apiUsage : String → Nat

/-- Result of a fetch: the returned papers, the updated state, and the list
of outbound SerpApi calls issued. -/
structure FetchOut where
  papers : List PaperS
  state : ScholarState
  calls : List SearchParams

/-- Python dict lookup `self.fetched_papers[d]` / `d in self.fetched_papers`
(a dict holds at most one entry per key, so first-match lookup is the dict
lookup). -/
def lookupHist : List (String × List String) → String → Option (List String)
  | [], _ => none
  | pr :: t, d => if pr.1 = d then some pr.2 else lookupHist t d

/-- Python dict assignment `self.fetched_papers[d] = ids`: replaces the
entry for `d` if present, otherwise appends it (dicts keep insertion
order). -/
def insertHist : List (String × List String) → String → List String →
    List (String × List String)
  | [], d, ids => [(d, ids)]
  | pr :: t, d, ids =>
    if pr.1 = d then (d, ids) :: t else pr :: insertHist t d ids

/-- Union of all per-date id sets (`all_fetched_ids`). -/
def allFetchedIds (hist : List (String × List String)) : List String :=
  (hist.map (fun pr => pr.2)).foldr (· ++ ·) []

/-- Selection loop shared by `_search_with_query` and
`_fetch_papers_keyword_based`: keep papers whose id is not in the known id
set, stopping as soon as `max_papers` have been kept.  The known set is
never extended during the loop (exactly as in the source). -/
def selectGo (known : List String) (maxPapers : Nat) :
    List PaperS → List PaperS → List PaperS
  | [], acc => acc
  | p :: rest, acc =>
    if p.id ∈ known then selectGo known maxPapers rest acc
    else
      let acc' := acc ++ [p]
      if maxPapers ≤ acc'.length then acc' else selectGo known maxPapers rest acc'

/-- Comparator for `papers.sort(key=lambda x: x["citations"], reverse=True)`. -/
def gtCitationsS (a b : PaperS) : Bool := decide (b.citations < a.citations)

/-- Construction of the `paper_info` dict from an organic result. -/
def mkPaperInfo (today : String) (r : OrganicResult) : PaperS :=
  { id := getPaperId r
    title := r.title.getD ""
    authors := extractAuthors r
    year := extractYear r
    citations := extractCitations r
    link := r.link.getD ""
    pdfLink := extractPdfLink r
    snippet := r.snippet.getD ""
    fetchedDate := today }

/-- Shared post-processing of an organic results list: filter free papers
meeting the citation floor, sort by citations descending, drop
already-fetched ids and truncate to `max_papers`. -/
def processOrganic (clock : Clock) (minCitations : Nat) (maxPapers : Nat)
    (hist : List (String × List String)) (organic : List OrganicResult) : List PaperS :=
  let papers := organic.filterMap fun r =>
    if isFreePaper r && decide (minCitations ≤ extractCitations r) then
      some (mkPaperInfo clock.today r)
    else none
  let sorted := pySortDesc gtCitationsS papers
  selectGo (allFetchedIds hist) maxPapers sorted []

/-- Handling of one `GoogleSearch(params).get_dict()` outcome; this tail
is textually duplicated between `_search_with_query` and
`_fetch_papers_keyword_based` in the source (modulo the citation floor)
and is factored here: an exception returns `[]` without incrementing the
usage; a response increments it; a response carrying `organic_results`
additionally runs the shared filtering pipeline. -/
def applyOutcome (clock : Clock) (minCitations maxPapers : Nat)
    (st : ScholarState) (ps : SearchParams) : SearchOutcome → FetchOut
  | .raise => ⟨[], st, [ps]⟩
  | .ok none =>
    ⟨[], { st with apiUsage := incrementApiUsage clock.monthKey st.apiUsage }, [ps]⟩
  | .ok (some organic) =>
    ⟨processOrganic clock minCitations maxPapers st.fetchedPapers organic,
     { st with apiUsage := incrementApiUsage clock.monthKey st.apiUsage }, [ps]⟩

/-- Python `_search_with_query` (`src/google_scholar_fetcher.py` 114-197):
checks the monthly limit, issues one SerpApi call over the last year with
`num=20`, increments the usage counter, filters free papers with at least
one citation, sorts by citations and keeps unseen ids up to `max_papers`.
An exception from the call returns `[]` without incrementing. -/
def searchWithQuery (env : SearchParams → SearchOutcome) (clock : Clock)
    (query : String) (maxPapers : Nat) (st : ScholarState) : FetchOut :=
  if (checkApiLimit st.apiUsage clock.monthKey).1 = false then ⟨[], st, []⟩
  else
    let ps : SearchParams := ⟨query, 20, clock.year - 1, clock.year⟩
    applyOutcome clock 1 maxPapers st ps (env ps)

/-- Default category list of `fetch_papers_by_arxiv_categories`. -/
def defaultCategories : List String :=
  ["cs.LG", "cs.AI", "cs.CL", "cs.CV", "cs.NE", "stat.ML"]

/-- Category query construction (`" OR ".join` over `cat:` prefixed names,
wrapped in `site:arxiv.org (...)`). -/
def categoryQuery (cats : List String) : String :=
  "site:arxiv.org (" ++ String.intercalate " OR " (cats.map (fun c => "cat:" ++ c)) ++ ")"

/-- Python `fetch_papers_by_arxiv_categories` with the default `None`
category argument. -/
def fetchPapersByArxivCategories (env : SearchParams → SearchOutcome) (clock : Clock)
    (maxPapers : Nat) (st : ScholarState) : FetchOut :=
  searchWithQuery env clock (categoryQuery defaultCategories) maxPapers st

/-- Python `self.search_queries_quality` (single active entry). -/
def searchQueriesQuality : List String :=
  ["site:arxiv.org (cat:cs.LG OR cat:cs.AI OR cat:cs.CL OR cat:cs.CV)"]

/-- Python `_update_search_queries_for_current_year`: the recent-strategy
query list for a given year. -/
def searchQueriesRecent (y : Nat) : List String :=
  ["site:arxiv.org (cat:cs.LG OR cat:cs.AI OR cat:cs.CL OR cat:cs.CV) year:" ++ toString y,
   "site:arxiv.org (\"machine learning\" OR \"deep learning\") year:" ++ toString y,
   "site:arxiv.org (\"transformer\" OR \"attention\") year:" ++ toString y,
   "site:arxiv.org (\"LLM\" OR \"large language model\") year:" ++ toString y,
   "site:arxiv.org \"generative AI\" year:" ++ toString y]

/-- Python `_get_year_range_for_recent`: include last year during the first
three months. -/
def yearRangeForRecent (clock : Clock) : Nat × Nat :=
  if clock.month ≤ 3 then (clock.year - 1, clock.year) else (clock.year, clock.year)

/-- Python `_fetch_papers_keyword_based` (`src/google_scholar_fetcher.py`
393-486): picks strategy and query by day of month, issues one SerpApi call
(note: without re-checking the monthly limit), increments usage, and runs
the shared filtering/sorting/deduplication.  The `force` argument is unused
by the source body and kept for signature fidelity. -/
def fetchPapersKeywordBased (env : SearchParams → SearchOutcome) (clock : Clock)
    (_force preferRecent : Bool) (maxPapers : Nat) (st : ScholarState) : FetchOut :=
  let queries := if preferRecent then searchQueriesRecent clock.year else searchQueriesQuality
  let yearRange :=
    if preferRecent then yearRangeForRecent clock else (clock.year - 2, clock.year)
  let minCitations : Nat := if preferRecent then 1 else 10
  let qIndex := (clock.day - 1) % queries.length
  let query := queries.getD qIndex ""
  let ps : SearchParams := ⟨query, 20, yearRange.1, yearRange.2⟩
  applyOutcome clock minCitations maxPapers st ps (env ps)

/-- Python `fetch_daily_papers` (`src/google_scholar_fetcher.py` 343-391):
skip when today is already in the history and `force` is off; stop when the
monthly limit is reached; otherwise try the category-based search and fall
back to the keyword-based search, recording accepted ids under today's key
(a dict assignment, i.e. `insertHist`). -/
def fetchDailyPapers (env : SearchParams → SearchOutcome) (clock : Clock)
    (force preferRecent : Bool) (maxPapers : Nat) (st : ScholarState) : FetchOut :=
  if (lookupHist st.fetchedPapers clock.today).isSome && !force then ⟨[], st, []⟩
  else if (checkApiLimit st.apiUsage clock.monthKey).1 = false then ⟨[], st, []⟩
  else
    let r1 := fetchPapersByArxivCategories env clock maxPapers st
    if !r1.papers.isEmpty then
      let st2 := { r1.state with
        fetchedPapers :=
          insertHist r1.state.fetchedPapers clock.today ((r1.papers.map (·.id)).dedup) }
      ⟨r1.papers, st2, r1.calls⟩
    else
      let r2 := fetchPapersKeywordBased env clock force preferRecent maxPapers r1.state
      if !r2.papers.isEmpty then
        let st3 := { r2.state with
          fetchedPapers :=
            insertHist r2.state.fetchedPapers clock.today ((r2.papers.map (·.id)).dedup) }
        ⟨r2.papers, st3, r1.calls ++ r2.calls⟩
      else ⟨[], r2.state, r1.calls ++ r2.calls⟩

/-! ## ArxivFetcher (`src/arxiv_fetcher.py`) and `main` (`src/main.py`)

Dates (`datetime`) are modelled as integer day ordinals; only their order
and differences matter to the code under scrutiny. -/

/-- The `ArxivPaper` dataclass. -/
structure ArxivPaperM where
  title : String
  authors : List String
  abstract : String
  arxivId : String
  published : Int
  categories : List String
  pdfUrl : String
  arxivUrl : String
  citationCount : Nat
  citationVelocity : Nat
deriving DecidableEq

/-- Python `arxiv_id.split("v")[0]`: the part before the first `v`. -/
def cleanArxivId (s : String) : String :=
  String.mk ((splitOnChar 'v' s.toList).headD [])

/-- Response of the per-paper Semantic Scholar v1 lookup
(`requests.get(url, timeout=10)` plus `response.json()`): a timeout, some
other requests exception, or an HTTP status with, on reading the body, the
optional `numCitedBy` / `citationVelocity` fields — `none` for a body whose
`json()` parse raises. -/
inductive SSLookup where
  | timeout
  | reqError
  | http (status : Nat) (body : Option (Option Nat × Option Nat))

/-- Result handling of `_get_citation_count_simple` (`src/arxiv_fetcher.py`
402-463): `(numCitedBy, citationVelocity)` with defaults 0 on a parsed 200
body, `(0, 0)` on 404, any other status, timeout, request error, or a body
whose parse raises (caught by the catch-all handler). -/
def processLookup : SSLookup → Nat × Nat
  | .timeout => (0, 0)
  | .reqError => (0, 0)
  | .http status body =>
    if status = 200 then
      match body with
      | none => (0, 0)
      | some (nc, cv) => (nc.getD 0, cv.getD 0)
    else if status = 404 then (0, 0)
    else (0, 0)

/-- Python `_get_citation_count_simple`: strips the version suffix from the
arXiv id and queries the per-paper endpoint keyed by the clean id. -/
def getCitationCountSimple (env : String → SSLookup) (arxivId : String) : Nat × Nat :=
  processLookup (env (cleanArxivId arxivId))

/-- Enriching loop of `fetch_recent_papers_by_citations`
(`src/arxiv_fetcher.py` 88-93): every fetched paper is looked up and its
citation fields set to the lookup result. -/
def enrichPapers (env : String → SSLookup) (papers : List ArxivPaperM) : List ArxivPaperM :=
  papers.map fun p =>
    let r := getCitationCountSimple env p.arxivId
    { p with citationCount := r.1, citationVelocity := r.2 }

/-- Comparator of `papers_with_citations.sort(key=lambda x:
x.citation_count, reverse=True)` in `fetch_recent_papers_by_citations`. -/
def gtCitCount (a b : ArxivPaperM) : Bool := decide (b.citationCount < a.citationCount)

/-- Python `fetch_recent_papers_by_citations` after the base fetch: enrich
every paper, sort by citation count descending, truncate. -/
def fetchRecentPapersByCitations (env : String → SSLookup)
    (fetched : List ArxivPaperM) (maxResults : Nat) : List ArxivPaperM :=
  (pySortDesc gtCitCount (enrichPapers env fetched)).take maxResults

/-- Comparator of `papers_with_citations.sort(key=lambda x:
(x.citation_count, x.citation_velocity), reverse=True)` in `src/main.py`
line 58: descending lexicographic on the pair. -/
def gtCitPair (a b : ArxivPaperM) : Bool :=
  decide (b.citationCount < a.citationCount) ||
    (decide (a.citationCount = b.citationCount) &&
      decide (b.citationVelocity < a.citationVelocity))

/-- The ranking sort of `src/main.py` lines 56-59. -/
def mainSort (papers : List ArxivPaperM) : List ArxivPaperM :=
  pySortDesc gtCitPair papers

/-- The ranked and truncated selection `papers_with_citations[:max_results]`
of `src/main.py` line 59. -/
def mainSelect (papers : List ArxivPaperM) (maxResults : Nat) : List ArxivPaperM :=
  (mainSort papers).take maxResults

/-! ### The Semantic Scholar search of
`fetch_ai_papers_by_citation_from_semantic_scholar`
(`src/arxiv_fetcher.py` 100-240). -/

/-- One record of the search response `data` array, with the read fields:
`externalIds.ArXiv`, `publicationDate` (outer `none`: key absent or null;
inner `none`: `datetime.fromisoformat` raises on it), `title`, `authors`,
`abstract`, `citationCount`. -/
structure SSRecord where
  arxivIdField : Option String
  pubDate : Option (Option Int)
  title : Option String
  authors : List (Option String)
  abstract : Option String
  citationCount : Option Nat
deriving DecidableEq

/-- Python `_create_arxiv_paper_from_semantic_scholar`: builds the paper,
defaulting the publication date to `datetime.now()` when absent; an
unparseable date raises inside the `try` and yields `None`. -/
def createFromSS (nowD : Int) (r : SSRecord) (aid : String) : Option ArxivPaperM :=
  match r.pubDate with
  | some none => none
  | some (some d) =>
    some { title := r.title.getD "", authors := r.authors.filterMap id,
           abstract := r.abstract.getD "", arxivId := aid, published := d,
           categories := ["cs.AI"],
           pdfUrl := "https://arxiv.org/pdf/" ++ aid ++ ".pdf",
           arxivUrl := "https://arxiv.org/abs/" ++ aid,
           citationCount := r.citationCount.getD 0, citationVelocity := 0 }
  | none =>
    some { title := r.title.getD "", authors := r.authors.filterMap id,
           abstract := r.abstract.getD "", arxivId := aid, published := nowD,
           categories := ["cs.AI"],
           pdfUrl := "https://arxiv.org/pdf/" ++ aid ++ ".pdf",
           arxivUrl := "https://arxiv.org/abs/" ++ aid,
           citationCount := r.citationCount.getD 0, citationVelocity := 0 }

/-- Strict filtering pass (`src/arxiv_fetcher.py` 179-220): keep records
with an arXiv id whose creation succeeds and whose parsed date lies in
`[startD, endD]`; records without a date are excluded; the loop breaks as
soon as `max_results` papers are collected (the break sits inside the
arXiv-id branch). -/
def strictGo (startD endD nowD : Int) (maxResults : Nat) :
    List SSRecord → List ArxivPaperM → List ArxivPaperM
  | [], acc => acc
  | r :: rest, acc =>
    match r.arxivIdField with
    | none => strictGo startD endD nowD maxResults rest acc
    | some aid =>
      let acc' :=
        match createFromSS nowD r aid with
        | none => acc
        | some p =>
          match r.pubDate with
          | some (some d) => if startD ≤ d ∧ d ≤ endD then acc ++ [p] else acc
          | some none => acc
          | none => acc
      if maxResults ≤ acc'.length then acc'
      else strictGo startD endD nowD maxResults rest acc'

/-- Widened fallback pass (`src/arxiv_fetcher.py` 223-234): one scan over
`papers_data[:max_results * 3]` that keeps every record with an arXiv id
whose creation succeeds — no date condition of any kind — up to
`max_results`. -/
def fallbackGo (nowD : Int) (maxResults : Nat) :
    List SSRecord → List ArxivPaperM → List ArxivPaperM
  | [], acc => acc
  | r :: rest, acc =>
    match r.arxivIdField with
    | none => fallbackGo nowD maxResults rest acc
    | some aid =>
      match createFromSS nowD r aid with
      | none => fallbackGo nowD maxResults rest acc
      | some p =>
        let acc' := acc ++ [p]
        if maxResults ≤ acc'.length then acc'
        else fallbackGo nowD maxResults rest acc'

/-- Result filtering of the Semantic Scholar search: the strict pass,
followed — only when it found nothing and the raw data is non-empty — by
exactly one widened pass. -/
def processSSData (data : List SSRecord) (startD endD nowD : Int)
    (maxResults : Nat) : List ArxivPaperM :=
  let strict := strictGo startD endD nowD maxResults data []
  if strict.length = 0 ∧ 0 < data.length then
    fallbackGo nowD maxResults (data.take (maxResults * 3)) []
  else strict

/-- Trace of the retry-while loop (`src/arxiv_fetcher.py` 137-163):
number of requests issued, the `time.sleep` waits between them (seconds),
and how the loop ended. -/
inductive RetryEnd where
  | success (status : Nat)
  | fallbackArxiv
  | apiError (status : Nat)
  | condExit
deriving DecidableEq

structure RetryTrace where
  attempts : Nat
  waits : List Nat
  ending : RetryEnd
deriving DecidableEq

/-- One simulation of the `while retry_count < max_retries` loop with
`max_retries = 3`.  `resp n` is the HTTP status of the `n`-th request.  The
fuel counts loop-condition checks; `retry_count` strictly increases on the
only looping branch, so three units of fuel are never exhausted from the
real entry point `retryLoop`. -/
def retryGo (resp : Nat → Nat) : Nat → Nat → List Nat → RetryTrace
  | 0, rc, waits => ⟨rc, waits, .condExit⟩
  | fuel + 1, rc, waits =>
    if rc < 3 then
      let s := resp rc
      if s = 200 then ⟨rc + 1, waits, .success s⟩
      else if s = 429 then
        if rc + 1 < 3 then retryGo resp fuel (rc + 1) (waits ++ [60 * (rc + 1)])
        else ⟨rc + 1, waits, .fallbackArxiv⟩
      else ⟨rc + 1, waits, .apiError s⟩
    else ⟨rc, waits, .condExit⟩

/-- The retry loop entered with `retry_count = 0`. -/
def retryLoop (resp : Nat → Nat) : RetryTrace := retryGo resp 3 0 []

/-- Outcome of `fetch_ai_papers_by_citation_from_semantic_scholar`: either
a returned paper list, or the degraded call `self.fetch_ai_papers
(max_results)` taken after the retries are exhausted. -/
inductive SSFetchOutcome where
  | results (papers : List ArxivPaperM)
  | plainArxiv (maxResults : Nat)
deriving DecidableEq

/-- Python `fetch_ai_papers_by_citation_from_semantic_scholar`: run the
retry loop; on success process the payload with the strict window
`[now - days_back, now]`; after three rate-limited attempts fall back to
the plain arXiv fetch; any other status returns `[]`.  (`condExit` is
unreachable from `retryLoop`; it is mapped to the empty result.) -/
def fetchSSModel (resp : Nat → Nat) (payload : List SSRecord)
    (daysBack maxResults : Nat) (nowD : Int) : SSFetchOutcome :=
  match (retryLoop resp).ending with
  | .success _ => .results (processSSData payload (nowD - daysBack) nowD nowD maxResults)
  | .fallbackArxiv => .plainArxiv maxResults
  | .apiError _ => .results []
  | .condExit => .results []

/-! ## QiitaUploader (`src/qiita_uploader.py`)

`create_article` names the article file `f"{safe_title}_{summary.arxiv_id}.md"`;
`get_existing_arxiv_ids` recovers ids from those names and
`is_paper_already_processed` checks a version-stripped id against them.
Filenames are handled at character level. -/

/-- Parse of one filename inside the loop of `get_existing_arxiv_ids`
(`src/qiita_uploader.py` 261-281): strip every `.md` occurrence, split on
underscores, take the last part, require exactly one dot, strip a version
suffix from the number part, check both parts are `int`-parseable, and
rebuild `f"{year_month}.{paper_num}"`.  `None` models `continue` / the
failed structural checks. -/
def parseFilenameId (f : List Char) : Option (List Char) :=
  match (splitOnChar '_' (removeMd f)).getLast? with
  | none => none
  | some potentialId =>
    if ('.' ∈ potentialId) && ((splitOnChar '.' potentialId).length == 2) then
      match splitOnChar '.' potentialId with
      | [yearMonth, paperNum] =>
        let paperNum2 :=
          if 'v' ∈ paperNum then (splitOnChar 'v' paperNum).headD [] else paperNum
        if pyIntOk yearMonth && pyIntOk paperNum2 then
          some (yearMonth ++ '.' :: paperNum2)
        else none
      | _ => none
    else none

/-- Python `get_existing_arxiv_ids` over the article file list. -/
def getExistingArxivIds (files : List (List Char)) : List (List Char) :=
  files.filterMap parseFilenameId

/-- Python `is_paper_already_processed`: membership of
`arxiv_id.split('v')[0]` in the existing ids. -/
def isPaperAlreadyProcessed (files : List (List Char)) (arxivId : List Char) : Bool :=
  decide ((splitOnChar 'v' arxivId).headD [] ∈ getExistingArxivIds files)

/-! ## Claims -/

/-- Claim C1: for the monthly API budget with limit 100, starting from a
fresh period (`api_usage.get(month_key, 0) == 0`), after `N` increments the
recorded usage for the period is `N`; `_check_api_limit` then returns
`allowed = (100 - N > 0)` and `remaining = 100 - N`; once usage is at
least 100 the check returns `false` on every read; the check is a pure
read (it takes the usage map and returns only the verdict pair). -/
theorem c1_quota_monotonicity (u0 : String → Nat) (mkey : String)
    (h0 : u0 mkey = 0) (N : Nat) :
    ((incrementApiUsage mkey)^[N] u0) mkey = N ∧
    checkApiLimit ((incrementApiUsage mkey)^[N] u0) mkey =
      (decide ((0 : Int) < 100 - (N : Int)), 100 - (N : Int)) ∧
    ∀ u : String → Nat, 100 ≤ u mkey → (checkApiLimit u mkey).1 = false := by
  have hN : ((incrementApiUsage mkey)^[N] u0) mkey = N := by
    rw [iterate_incrementApiUsage, h0]
    omega
  refine ⟨hN, ?_, ?_⟩
  · simp [checkApiLimit, hN]
  · intro u hu
    simp only [checkApiLimit, Bool.decide_eq_false]
    simp only [decide_eq_false_iff_not]
    omega

theorem c1_quota_monotonicity_witness :
    ((fun _ : String => 0) "2025-01" = 0) ∧
    (((incrementApiUsage "2025-01")^[7] (fun _ : String => 0)) "2025-01" = 7 ∧
     checkApiLimit ((incrementApiUsage "2025-01")^[7] (fun _ : String => 0)) "2025-01" =
       (decide ((0 : Int) < 100 - (7 : Int)), 100 - (7 : Int)) ∧
     ∀ u : String → Nat, 100 ≤ u "2025-01" → (checkApiLimit u "2025-01").1 = false) :=
  ⟨rfl, c1_quota_monotonicity (fun _ => 0) "2025-01" rfl 7⟩

/-- Claim C3: when the Semantic Scholar search endpoint answers 429 on
every attempt, the fetch makes exactly 3 request attempts, waits
`60 * attemptNumber` seconds between consecutive attempts (waits of 60 and
120 seconds), then falls back to the plain arXiv fetch
(`self.fetch_ai_papers(max_results)`); the loop is a total function, hence
always terminates. -/
theorem c3_backoff_bound (resp : Nat → Nat) (payload : List SSRecord)
    (daysBack maxResults : Nat) (nowD : Int)
    (h : ∀ n, resp n = 429) :
    retryLoop resp = ⟨3, [60, 120], RetryEnd.fallbackArxiv⟩ ∧
    fetchSSModel resp payload daysBack maxResults nowD =
      SSFetchOutcome.plainArxiv maxResults := by
  have htrace : retryLoop resp = ⟨3, [60, 120], RetryEnd.fallbackArxiv⟩ := by
    simp [retryLoop, retryGo, h]
  exact ⟨htrace, by simp [fetchSSModel, htrace]⟩

theorem c3_backoff_bound_witness :
    (∀ n : Nat, (fun _ : Nat => 429) n = 429) ∧
    retryLoop (fun _ : Nat => 429) = ⟨3, [60, 120], RetryEnd.fallbackArxiv⟩ ∧
    fetchSSModel (fun _ : Nat => 429) [] 7 10 0 = SSFetchOutcome.plainArxiv 10 :=
  ⟨fun _ => rfl,
   (c3_backoff_bound (fun _ => 429) [] 7 10 0 (fun _ => rfl)).1,
   (c3_backoff_bound (fun _ => 429) [] 7 10 0 (fun _ => rfl)).2⟩

/-- Claim C4: whenever the recorded usage for the current period is at
least 100 when the daily run starts, `fetch_daily_papers` returns the
empty list, issues no outbound SerpApi call on any path (category-based or
keyword-based), and leaves the state untouched. -/
theorem c4_quota_exhausted_blocks_run (env : SearchParams → SearchOutcome)
    (clock : Clock) (force preferRecent : Bool) (maxPapers : Nat)
    (st : ScholarState) (h : 100 ≤ st.apiUsage clock.monthKey) :
    fetchDailyPapers env clock force preferRecent maxPapers st = ⟨[], st, []⟩ := by
  have hc : (checkApiLimit st.apiUsage clock.monthKey).1 = false := by
    simp only [checkApiLimit, decide_eq_false_iff_not]
    omega
  simp [fetchDailyPapers, hc]

theorem c4_quota_exhausted_blocks_run_witness :
    100 ≤ (⟨[], fun _ => 100⟩ : ScholarState).apiUsage "2025-03" ∧
    fetchDailyPapers (fun _ => SearchOutcome.ok none)
      ⟨"2025-03-10", "2025-03", 2025, 3, 10⟩ false false 1
      ⟨[], fun _ => 100⟩ = ⟨[], ⟨[], fun _ => 100⟩, []⟩ :=
  ⟨by decide,
   c4_quota_exhausted_blocks_run (fun _ => SearchOutcome.ok none)
     ⟨"2025-03-10", "2025-03", 2025, 3, 10⟩ false false 1
     ⟨[], fun _ => 100⟩ (by decide)⟩

/-- Claim C10: when today's key is already present in the loaded history
and `force` is off, `fetch_daily_papers` returns the empty list
immediately, with no outbound call and the state (history and API usage)
unchanged. -/
theorem c10_skip_when_already_fetched (env : SearchParams → SearchOutcome)
    (clock : Clock) (preferRecent : Bool) (maxPapers : Nat) (st : ScholarState)
    (h : (lookupHist st.fetchedPapers clock.today).isSome = true) :
    fetchDailyPapers env clock false preferRecent maxPapers st = ⟨[], st, []⟩ := by
  simp [fetchDailyPapers, h]

theorem c10_skip_when_already_fetched_witness :
    (lookupHist [("2025-03-10", ["a"])] "2025-03-10").isSome = true ∧
    fetchDailyPapers (fun _ => SearchOutcome.ok none)
      ⟨"2025-03-10", "2025-03", 2025, 3, 10⟩ false false 1
      ⟨[("2025-03-10", ["a"])], fun _ => 0⟩ =
      ⟨[], ⟨[("2025-03-10", ["a"])], fun _ => 0⟩, []⟩ :=
  ⟨by decide,
   c10_skip_when_already_fetched (fun _ => SearchOutcome.ok none)
     ⟨"2025-03-10", "2025-03", 2025, 3, 10⟩ false 1
     ⟨[("2025-03-10", ["a"])], fun _ => 0⟩ (by decide)⟩

/-- Claim C7: the per-item citation lookup returns `(0, 0)` on timeout, on
a request error, on a 404, on any other non-200 status and on a 200 body
whose parse raises; the enriching loop of
`fetch_recent_papers_by_citations` processes every paper (same length,
position by position) and returns the same papers with only the citation
fields set from the lookup result. -/
theorem c7_enrichment_never_aborts :
    processLookup SSLookup.timeout = (0, 0) ∧
    processLookup SSLookup.reqError = (0, 0) ∧
    (∀ (s : Nat) (b : Option (Option Nat × Option Nat)), s ≠ 200 →
      processLookup (SSLookup.http s b) = (0, 0)) ∧
    processLookup (SSLookup.http 200 none) = (0, 0) ∧
    (∀ (env : String → SSLookup) (papers : List ArxivPaperM),
      (enrichPapers env papers).length = papers.length ∧
      ∀ (i : Nat) (p : ArxivPaperM), papers.get? i = some p →
        (enrichPapers env papers).get? i =
          some { p with citationCount := (getCitationCountSimple env p.arxivId).1,
                        citationVelocity := (getCitationCountSimple env p.arxivId).2 }) := by
  refine ⟨rfl, rfl, ?_, rfl, ?_⟩
  · intro s b hs
    simp [processLookup, hs]
  · intro env papers
    constructor
    · simp [enrichPapers]
    · intro i p hp
      unfold enrichPapers
      rw [List.get?_map, hp]
      rfl

/-- Shared concrete paper for witnesses. -/
def exPaper : ArxivPaperM :=
  { title := "t", authors := [], abstract := "", arxivId := "2507.13353v1",
    published := 0, categories := [], pdfUrl := "", arxivUrl := "",
    citationCount := 0, citationVelocity := 0 }

theorem c7_enrichment_never_aborts_witness :
    ((500 : Nat) ≠ 200 ∧
      processLookup (SSLookup.http 500 none) = (0, 0)) ∧
    (([exPaper].get? 0 = some exPaper) ∧
      (enrichPapers (fun _ => SSLookup.timeout) [exPaper]).get? 0 =
        some { exPaper with
               citationCount :=
                 (getCitationCountSimple (fun _ => SSLookup.timeout) exPaper.arxivId).1,
               citationVelocity :=
                 (getCitationCountSimple (fun _ => SSLookup.timeout) exPaper.arxivId).2 }) :=
  ⟨⟨by decide, (c7_enrichment_never_aborts.2.2.1) 500 none (by decide)⟩,
   ⟨rfl, ((c7_enrichment_never_aborts.2.2.2.2) (fun _ => SSLookup.timeout) [exPaper]).2
     0 exPaper rfl⟩⟩

/-! ### Claim C2: deduplication of a fetched batch. -/

theorem selectGo_mem_cases (known : List String) (k : Nat) :
    ∀ (l acc : List PaperS) (p : PaperS), p ∈ selectGo known k l acc →
      p ∈ acc ∨ (p ∈ l ∧ p.id ∉ known)
  | [], acc, p, h => Or.inl h
  | q :: rest, acc, p, h => by
    simp only [selectGo] at h
    by_cases hq : q.id ∈ known
    · rw [if_pos hq] at h
      rcases selectGo_mem_cases known k rest acc p h with h' | ⟨h1, h2⟩
      · exact Or.inl h'
      · exact Or.inr ⟨List.mem_cons_of_mem _ h1, h2⟩
    · rw [if_neg hq] at h
      by_cases hlen : k ≤ (acc ++ [q]).length
      · rw [if_pos hlen] at h
        rcases List.mem_append.mp h with h' | h'
        · exact Or.inl h'
        · rcases List.mem_singleton.mp h' with rfl
          exact Or.inr ⟨List.mem_cons_self _ _, hq⟩
      · rw [if_neg hlen] at h
        rcases selectGo_mem_cases known k rest (acc ++ [q]) p h with h' | ⟨h1, h2⟩
        · rcases List.mem_append.mp h' with h'' | h''
          · exact Or.inl h''
          · rcases List.mem_singleton.mp h'' with rfl
            exact Or.inr ⟨List.mem_cons_self _ _, hq⟩
        · exact Or.inr ⟨List.mem_cons_of_mem _ h1, h2⟩

theorem mem_allFetchedIds {x : String} :
    ∀ {hist : List (String × List String)},
      x ∈ allFetchedIds hist ↔ ∃ pr, pr ∈ hist ∧ x ∈ pr.2
  | [] => by simp [allFetchedIds]
  | pr :: rest => by
    have ih := @mem_allFetchedIds x rest
    simp only [allFetchedIds, List.map_cons, List.foldr_cons, List.mem_append]
    rw [show ((rest.map (fun pr => pr.2)).foldr (· ++ ·) []) = allFetchedIds rest from rfl]
    constructor
    · rintro (h | h)
      · exact ⟨pr, List.mem_cons_self _ _, h⟩
      · rcases ih.mp h with ⟨pr', h1, h2⟩
        exact ⟨pr', List.mem_cons_of_mem _ h1, h2⟩
    · rintro ⟨pr', h1, h2⟩
      rcases List.mem_cons.mp h1 with rfl | h1'
      · exact Or.inl h2
      · exact Or.inr (ih.mpr ⟨pr', h1', h2⟩)

/-- Claim C2, amended part that holds: no paper selected by the shared
deduplication loop carries an id present in any date's id set of the
loaded history.  (The in-batch part of the claim is refuted by
`c2_counterexample`: the known-id set is not extended during the loop, so
duplicate candidates all survive.) -/
theorem c2_no_selected_id_from_history (hist : List (String × List String))
    (maxPapers : Nat) (candidates : List PaperS) (p : PaperS)
    (hp : p ∈ selectGo (allFetchedIds hist) maxPapers candidates []) :
    p.id ∉ allFetchedIds hist ∧ ∀ d ids, (d, ids) ∈ hist → p.id ∉ ids := by
  rcases selectGo_mem_cases (allFetchedIds hist) maxPapers candidates [] p hp with h | ⟨_, h2⟩
  · cases h
  · refine ⟨h2, ?_⟩
    intro d ids hmem hin
    exact h2 (mem_allFetchedIds.mpr ⟨(d, ids), hmem, hin⟩)

theorem c2_no_selected_id_from_history_witness :
    (({ id := "new", title := "", authors := [], year := none, citations := 3,
        link := "", pdfLink := none, snippet := "", fetchedDate := "" } : PaperS) ∈
      selectGo (allFetchedIds [("2025-03-09", ["old"])]) 1
        [{ id := "new", title := "", authors := [], year := none, citations := 3,
           link := "", pdfLink := none, snippet := "", fetchedDate := "" }] []) ∧
    (({ id := "new", title := "", authors := [], year := none, citations := 3,
        link := "", pdfLink := none, snippet := "", fetchedDate := "" } : PaperS).id ∉
      allFetchedIds [("2025-03-09", ["old"])] ∧
     ∀ d ids, (d, ids) ∈ [("2025-03-09", ["old"])] →
       ({ id := "new", title := "", authors := [], year := none, citations := 3,
          link := "", pdfLink := none, snippet := "", fetchedDate := "" } : PaperS).id ∉ ids) :=
  ⟨by decide,
   c2_no_selected_id_from_history [("2025-03-09", ["old"])] 1
     [{ id := "new", title := "", authors := [], year := none, citations := 3,
        link := "", pdfLink := none, snippet := "", fetchedDate := "" }]
     { id := "new", title := "", authors := [], year := none, citations := 3,
       link := "", pdfLink := none, snippet := "", fetchedDate := "" } (by decide)⟩

/-- Shared wall clock for the concrete scholar-fetcher runs. -/
def exClock : Clock := ⟨"2025-03-10", "2025-03", 2025, 3, 10⟩

/-- Shared concrete SerpApi organic result: a free arXiv paper with 5
citations. -/
def exResult : OrganicResult :=
  ⟨some "T", some "https://arxiv.org/abs/2503.00001", some "S", none, some 5, none, none⟩

/-- Claim C2, counterexample: a search whose response contains the same
organic result twice (identical title and link, hence identical md5 id)
selects both copies against an empty history — the selected list contains
two entries with the same id, so in-batch duplicates are not dropped. -/
theorem c2_counterexample :
    ((searchWithQuery (fun _ => SearchOutcome.ok (some [exResult, exResult]))
        exClock "q" 2 ⟨[], fun _ => 0⟩).papers.map (fun p => p.id)) =
      [md5Hex "Thttps://arxiv.org/abs/2503.00001",
       md5Hex "Thttps://arxiv.org/abs/2503.00001"] := by
  decide

/-! ### Claim C6: ranking order. -/

theorem insertStable_perm {α : Type} (gtB : α → α → Bool) (x : α) :
    ∀ l : List α, List.Perm (insertStable gtB x l) (x :: l)
  | [] => List.Perm.refl _
  | y :: ys => by
    simp only [insertStable]
    by_cases h : gtB y x = true
    · rw [if_pos h]
      exact (List.Perm.cons y (insertStable_perm gtB x ys)).trans
        (List.Perm.swap x y ys)
    · rw [if_neg h]

theorem pySortDesc_perm {α : Type} (gtB : α → α → Bool) :
    ∀ l : List α, List.Perm (pySortDesc gtB l) l
  | [] => List.Perm.refl _
  | x :: xs =>
    (insertStable_perm gtB x (pySortDesc gtB xs)).trans
      (List.Perm.cons x (pySortDesc_perm gtB xs))

theorem insertStable_pairwise {α : Type} (gtB : α → α → Bool)
    (hasym : ∀ a b, gtB a b = true → gtB b a = false)
    (hneg : ∀ a b c, gtB a b = false → gtB b c = false → gtB a c = false)
    (x : α) : ∀ {l : List α}, l.Pairwise (fun a b => gtB b a = false) →
      (insertStable gtB x l).Pairwise (fun a b => gtB b a = false)
  | [], _ => by simp [insertStable]
  | y :: ys, hp => by
    rcases List.pairwise_cons.mp hp with ⟨hy, hys⟩
    simp only [insertStable]
    by_cases hgt : gtB y x = true
    · rw [if_pos hgt]
      refine List.pairwise_cons.mpr ⟨?_, insertStable_pairwise gtB hasym hneg x hys⟩
      intro z hz
      have hz' := (insertStable_perm gtB x ys).mem_iff.mp hz
      rcases List.mem_cons.mp hz' with rfl | hzys
      · exact hasym _ _ hgt
      · exact hy z hzys
    · rw [if_neg hgt]
      have hyx : gtB y x = false := Bool.not_eq_true _ ▸ eq_false_of_ne_true hgt
      refine List.pairwise_cons.mpr ⟨?_, hp⟩
      intro z hz
      rcases List.mem_cons.mp hz with rfl | hzys
      · exact hyx
      · exact hneg _ _ _ (hy z hzys) hyx

theorem pySortDesc_pairwise {α : Type} (gtB : α → α → Bool)
    (hasym : ∀ a b, gtB a b = true → gtB b a = false)
    (hneg : ∀ a b c, gtB a b = false → gtB b c = false → gtB a c = false) :
    ∀ l : List α, (pySortDesc gtB l).Pairwise (fun a b => gtB b a = false)
  | [] => by simp [pySortDesc]
  | x :: xs =>
    insertStable_pairwise gtB hasym hneg x
      (pySortDesc_pairwise gtB hasym hneg xs)

theorem gtCitPair_asymm (a b : ArxivPaperM) :
    gtCitPair a b = true → gtCitPair b a = false := by
  simp only [gtCitPair, Bool.or_eq_true, Bool.and_eq_true, decide_eq_true_eq,
    Bool.or_eq_false_iff, Bool.and_eq_false_iff, decide_eq_false_iff_not]
  omega

theorem gtCitPair_negtrans (a b c : ArxivPaperM) :
    gtCitPair a b = false → gtCitPair b c = false → gtCitPair a c = false := by
  simp only [gtCitPair, Bool.or_eq_false_iff, Bool.and_eq_false_iff,
    decide_eq_false_iff_not]
  omega

/-- Concrete papers of the ranking example of the claim: equal citation
counts 5, velocities 0, 3 and 1. -/
def c6A : ArxivPaperM :=
  { title := "A", authors := [], abstract := "", arxivId := "a", published := 10,
    categories := [], pdfUrl := "", arxivUrl := "",
    citationCount := 5, citationVelocity := 0 }

def c6B : ArxivPaperM :=
  { title := "B", authors := [], abstract := "", arxivId := "b", published := 20,
    categories := [], pdfUrl := "", arxivUrl := "",
    citationCount := 5, citationVelocity := 3 }

def c6C : ArxivPaperM :=
  { title := "C", authors := [], abstract := "", arxivId := "c", published := 30,
    categories := [], pdfUrl := "", arxivUrl := "",
    citationCount := 5, citationVelocity := 1 }

/-- Claim C6, amended: the ranking of `src/main.py` (lines 56-59) sorts by
citation count descending with ties broken by citation velocity
descending; remaining ties keep the input order (Python's sort is stable)
— there is no publication-date tie-break.  The output is a permutation of
the input, no later element is lexicographically greater than an earlier
one, and the A/B/C example of the claim comes out as B, C, A. -/
theorem c6_ranking_deterministic :
    (∀ l : List ArxivPaperM,
      List.Perm (mainSort l) l ∧
      (mainSort l).Pairwise (fun a b => gtCitPair b a = false)) ∧
    mainSort [c6A, c6B, c6C] = [c6B, c6C, c6A] := by
  refine ⟨fun l => ⟨pySortDesc_perm gtCitPair l, ?_⟩, by decide⟩
  exact pySortDesc_pairwise gtCitPair gtCitPair_asymm gtCitPair_negtrans l

/-- Claim C6, counterexample: two candidates with identical citation count
and velocity but different publication dates keep their input order (older
first), whereas the claim requires the newest first — the sort key of
`src/main.py` line 58 has no date component. -/
theorem c6_counterexample :
    mainSort
      [{ c6A with arxivId := "old", published := 100 },
       { c6A with arxivId := "new", published := 200 }] =
      [{ c6A with arxivId := "old", published := 100 },
       { c6A with arxivId := "new", published := 200 }] ∧
    ({ c6A with arxivId := "old", published := 100 } : ArxivPaperM).published <
      ({ c6A with arxivId := "new", published := 200 } : ArxivPaperM).published ∧
    ({ c6A with arxivId := "old", published := 100 } : ArxivPaperM) ≠
      { c6A with arxivId := "new", published := 200 } := by
  refine ⟨by decide, by decide, by decide⟩

/-! ### Claim C9: window-widening fallback. -/

/-- Claim C9, amended: when the strict date filter over the fetched
results yields nothing while the raw list is non-empty, exactly one
widened pass runs over the first `max_results * 3` already-fetched
records, and the result of that single pass is final (no further widening
iterations exist); when the strict pass finds papers, no widening happens.
The widened pass, however, applies no date filter at all: for every
candidate look-back bound there is an input whose single accepted paper
lies further back than that bound. -/
theorem c9_single_widened_pass (data : List SSRecord) (startD endD nowD : Int)
    (k : Nat) :
    (strictGo startD endD nowD k data [] ≠ [] →
      processSSData data startD endD nowD k = strictGo startD endD nowD k data []) ∧
    (strictGo startD endD nowD k data [] = [] → data ≠ [] →
      processSSData data startD endD nowD k =
        fallbackGo nowD k (data.take (k * 3)) []) ∧
    (∀ bound : Nat, ∃ (d2 : List SSRecord) (p : ArxivPaperM),
      strictGo startD endD nowD 1 d2 [] = [] ∧
      processSSData d2 startD endD nowD 1 = [p] ∧
      p.published < endD - (bound : Int)) := by
  refine ⟨?_, ?_, ?_⟩
  · intro h
    unfold processSSData
    rw [if_neg]
    intro ⟨h1, _⟩
    exact h (List.length_eq_zero.mp h1)
  · intro h hdata
    unfold processSSData
    rw [if_pos]
    exact ⟨by rw [h]; rfl, List.length_pos.mpr hdata⟩
  · intro bound
    refine ⟨[⟨some "x", some (some (min startD (endD - (bound : Int)) - 1)),
              none, [], none, none⟩],
            { title := "", authors := [], abstract := "", arxivId := "x",
              published := min startD (endD - (bound : Int)) - 1,
              categories := ["cs.AI"],
              pdfUrl := "https://arxiv.org/pdf/x.pdf",
              arxivUrl := "https://arxiv.org/abs/x",
              citationCount := 0, citationVelocity := 0 }, ?_, ?_, ?_⟩
    · have hlt : ¬ (startD ≤ min startD (endD - (bound : Int)) - 1 ∧
          min startD (endD - (bound : Int)) - 1 ≤ endD) := by
        intro ⟨h1, _⟩
        omega
      simp only [strictGo, createFromSS]
      rw [if_neg hlt]
      simp [strictGo]
    · have hlt : ¬ (startD ≤ min startD (endD - (bound : Int)) - 1 ∧
          min startD (endD - (bound : Int)) - 1 ≤ endD) := by
        intro ⟨h1, _⟩
        omega
      unfold processSSData
      rw [if_pos]
      · simp [fallbackGo, createFromSS]
      · constructor
        · simp only [strictGo, createFromSS]
          rw [if_neg hlt]
          simp [strictGo]
        · simp
    · simp only []
      omega

theorem c9_single_widened_pass_witness :
    strictGo (-7) 0 0 1 [⟨none, none, none, [], none, none⟩] [] = [] ∧
    ([(⟨none, none, none, [], none, none⟩ : SSRecord)] ≠ []) ∧
    processSSData [⟨none, none, none, [], none, none⟩] (-7) 0 0 1 =
      fallbackGo 0 1 ([(⟨none, none, none, [], none, none⟩ : SSRecord)].take (1 * 3)) [] :=
  ⟨by decide, by decide,
   (c9_single_widened_pass [⟨none, none, none, [], none, none⟩] (-7) 0 0 1).2.1
     (by decide) (by decide)⟩

/-- Claim C9, counterexample: with a 7-day strict window ending at day 0,
a single fetched record published 10000 days earlier is rejected by the
strict pass and then accepted by the widened pass — the widened retry
applies no look-back bound at all (10000 days is far beyond the documented
365-day maximum), so the pass is not "bounded by a fixed maximum
look-back" as the claim states. -/
theorem c9_counterexample :
    strictGo (-7) 0 0 1 [⟨some "x", some (some (-10000)), none, [], none, none⟩] [] = [] ∧
    processSSData [⟨some "x", some (some (-10000)), none, [], none, none⟩] (-7) 0 0 1 =
      [{ title := "", authors := [], abstract := "", arxivId := "x",
         published := -10000, categories := ["cs.AI"],
         pdfUrl := "https://arxiv.org/pdf/x.pdf",
         arxivUrl := "https://arxiv.org/abs/x",
         citationCount := 0, citationVelocity := 0 }] ∧
    ((0 : Int) - (-10000 : Int) > 365) := by
  refine ⟨by decide, by decide, by decide⟩

/-! ### Claim C8: history update behaviour. -/

theorem lookupHist_insertHist_self :
    ∀ (h : List (String × List String)) (d : String) (ids : List String),
      lookupHist (insertHist h d ids) d = some ids
  | [], d, ids => by simp [insertHist, lookupHist]
  | pr :: t, d, ids => by
    by_cases hd : pr.1 = d
    · simp [insertHist, lookupHist, hd]
    · simp only [insertHist, if_neg hd, lookupHist, if_neg hd]
      exact lookupHist_insertHist_self t d ids

theorem lookupHist_insertHist_ne :
    ∀ (h : List (String × List String)) (d d' : String) (ids : List String),
      d' ≠ d →
      lookupHist (insertHist h d ids) d' = lookupHist h d'
  | [], d, d', ids, hne => by
    have hdd : ¬ d = d' := fun he => hne he.symm
    simp [insertHist, lookupHist, hdd]
  | pr :: t, d, d', ids, hne => by
    have hdd : ¬ d = d' := fun he => hne he.symm
    by_cases hd : pr.1 = d
    · simp [insertHist, lookupHist, hd, hdd]
    · by_cases hd' : pr.1 = d'
      · simp [insertHist, lookupHist, hd, hd', hne]
      · simp [insertHist, lookupHist, hd, hd',
          lookupHist_insertHist_ne t d d' ids hne]

theorem applyOutcome_state_hist (clock : Clock) (minCitations maxPapers : Nat)
    (st : ScholarState) (ps : SearchParams) (o : SearchOutcome) :
    (applyOutcome clock minCitations maxPapers st ps o).state.fetchedPapers =
      st.fetchedPapers := by
  cases o with
  | raise => rfl
  | ok organic => cases organic <;> rfl

theorem searchWithQuery_state_hist (env : SearchParams → SearchOutcome)
    (clock : Clock) (q : String) (k : Nat) (st : ScholarState) :
    (searchWithQuery env clock q k st).state.fetchedPapers = st.fetchedPapers := by
  unfold searchWithQuery
  split
  · rfl
  · exact applyOutcome_state_hist ..

theorem fetchPapersByArxivCategories_state_hist (env : SearchParams → SearchOutcome)
    (clock : Clock) (k : Nat) (st : ScholarState) :
    (fetchPapersByArxivCategories env clock k st).state.fetchedPapers = st.fetchedPapers :=
  searchWithQuery_state_hist env clock _ k st

theorem fetchPapersKeywordBased_state_hist (env : SearchParams → SearchOutcome)
    (clock : Clock) (force preferRecent : Bool) (k : Nat) (st : ScholarState) :
    (fetchPapersKeywordBased env clock force preferRecent k st).state.fetchedPapers =
      st.fetchedPapers :=
  applyOutcome_state_hist ..

/-- Claim C8, amended: a daily fetch never modifies the history entry of
any date other than today; when it accepts a non-empty batch it sets
today's entry to exactly the deduplicated ids of the accepted batch — a
dict assignment that replaces any previous entry for today (so a forced
second run on the same day replaces, rather than extends, the first run's
entry; see `c8_counterexample`). -/
theorem c8_history_replacement (env : SearchParams → SearchOutcome) (clock : Clock)
    (force preferRecent : Bool) (maxPapers : Nat) (st : ScholarState) :
    (∀ d, d ≠ clock.today →
      lookupHist (fetchDailyPapers env clock force preferRecent maxPapers st).state.fetchedPapers d =
        lookupHist st.fetchedPapers d) ∧
    ((fetchDailyPapers env clock force preferRecent maxPapers st).papers ≠ [] →
      lookupHist (fetchDailyPapers env clock force preferRecent maxPapers st).state.fetchedPapers
          clock.today =
        some (((fetchDailyPapers env clock force preferRecent maxPapers st).papers.map
          (fun p => p.id)).dedup)) := by
  simp only [fetchDailyPapers]
  split
  · exact ⟨fun d _ => rfl, fun h => absurd rfl h⟩
  · split
    · exact ⟨fun d _ => rfl, fun h => absurd rfl h⟩
    · split
      · constructor
        · intro d hd
          show lookupHist (insertHist _ clock.today _) d = _
          rw [lookupHist_insertHist_ne _ _ _ _ hd,
            fetchPapersByArxivCategories_state_hist]
        · intro _
          exact lookupHist_insertHist_self _ _ _
      · split
        · constructor
          · intro d hd
            show lookupHist (insertHist _ clock.today _) d = _
            rw [lookupHist_insertHist_ne _ _ _ _ hd,
              fetchPapersKeywordBased_state_hist,
              fetchPapersByArxivCategories_state_hist]
          · intro _
            exact lookupHist_insertHist_self _ _ _
        · constructor
          · intro d _
            show lookupHist
              (fetchPapersKeywordBased env clock force preferRecent maxPapers
                (fetchPapersByArxivCategories env clock maxPapers st).state).state.fetchedPapers d =
              _
            rw [fetchPapersKeywordBased_state_hist,
              fetchPapersByArxivCategories_state_hist]
          · exact fun h => absurd rfl h

/-- Environment for the forced second-run scenario: the SerpApi call for
the category-based query answers with one free arXiv paper; any other
query yields no results. -/
def c8Env : SearchParams → SearchOutcome :=
  fun ps =>
    if ps.q == categoryQuery defaultCategories then SearchOutcome.ok (some [exResult])
    else SearchOutcome.ok (some [])

/-- State after a first run on 2025-03-10 that recorded the id `previd`. -/
def c8St : ScholarState := ⟨[("2025-03-10", ["previd"])], fun _ => 0⟩

theorem c8_history_replacement_witness :
    ("2025-03-09" : String) ≠ exClock.today ∧
    lookupHist (fetchDailyPapers c8Env exClock true false 1 c8St).state.fetchedPapers
        "2025-03-09" =
      lookupHist c8St.fetchedPapers "2025-03-09" ∧
    ((fetchDailyPapers c8Env exClock true false 1 c8St).papers ≠ [] →
      lookupHist (fetchDailyPapers c8Env exClock true false 1 c8St).state.fetchedPapers
          exClock.today =
        some (((fetchDailyPapers c8Env exClock true false 1 c8St).papers.map
          (fun p => p.id)).dedup)) :=
  ⟨by decide,
   (c8_history_replacement c8Env exClock true false 1 c8St).1 "2025-03-09" (by decide),
   (c8_history_replacement c8Env exClock true false 1 c8St).2⟩

/-- Claim C8, counterexample: the history is not append-only across a
forced second run on the same day.  Starting from a first run that
recorded `previd` for 2025-03-10, a forced second run accepting a new
paper replaces today's entry wholesale: the new entry holds only the new
id, and `previd` is gone from it. -/
theorem c8_counterexample :
    "previd" ∈ (lookupHist c8St.fetchedPapers "2025-03-10").getD [] ∧
    (fetchDailyPapers c8Env exClock true false 1 c8St).papers ≠ [] ∧
    lookupHist (fetchDailyPapers c8Env exClock true false 1 c8St).state.fetchedPapers
        "2025-03-10" =
      some [md5Hex "Thttps://arxiv.org/abs/2503.00001"] ∧
    "previd" ∉
      (lookupHist (fetchDailyPapers c8Env exClock true false 1 c8St).state.fetchedPapers
        "2025-03-10").getD [] := by
  refine ⟨by decide, by decide, by decide, by decide⟩

/-! ### Claim C5: version folding of arXiv ids. -/

theorem splitOnChar_ne_nil (c : Char) (s : List Char) : splitOnChar c s ≠ [] := by
  cases s with
  | nil => simp [splitOnChar]
  | cons x xs =>
    simp only [splitOnChar]
    split
    · simp
    · split <;> simp

theorem splitOnChar_not_mem {c : Char} :
    ∀ {s : List Char}, c ∉ s → splitOnChar c s = [s]
  | [], _ => rfl
  | x :: xs, h => by
    have hx : ¬ x = c := fun he => h (he ▸ List.mem_cons_self x xs)
    have hxs : c ∉ xs := fun hm => h (List.mem_cons_of_mem _ hm)
    simp only [splitOnChar, if_neg hx]
    rw [splitOnChar_not_mem hxs]

theorem splitOnChar_append_sep {c : Char} :
    ∀ {s : List Char} (t : List Char), c ∉ s →
      splitOnChar c (s ++ c :: t) = s :: splitOnChar c t
  | [], t, _ => by simp [splitOnChar]
  | x :: xs, t, h => by
    have hx : ¬ x = c := fun he => h (he ▸ List.mem_cons_self x xs)
    have hxs : c ∉ xs := fun hm => h (List.mem_cons_of_mem _ hm)
    simp only [List.cons_append, splitOnChar, if_neg hx, List.append_eq]
    rw [splitOnChar_append_sep t hxs]

theorem splitOnChar_length_two_le {c : Char} :
    ∀ {s : List Char}, c ∈ s → 2 ≤ (splitOnChar c s).length
  | x :: xs, h => by
    by_cases hx : x = c
    · simp only [splitOnChar, if_pos hx, List.length_cons]
      have h1 := splitOnChar_ne_nil c xs
      have h2 : 0 < (splitOnChar c xs).length := List.length_pos.mpr h1
      omega
    · have hxs : c ∈ xs := by
        rcases List.mem_cons.mp h with he | hm
        · exact absurd he.symm hx
        · exact hm
      have ih := splitOnChar_length_two_le hxs
      simp only [splitOnChar, if_neg hx]
      rcases hsp : splitOnChar c xs with _ | ⟨p, ps⟩
      · exact absurd hsp (splitOnChar_ne_nil c xs)
      · rw [hsp] at ih
        simp only [List.length_cons] at ih ⊢
        omega

theorem getLast?_cons_ne_nil {α : Type} (a : α) :
    ∀ {l : List α}, l ≠ [] → (a :: l).getLast? = l.getLast?
  | [], h => absurd rfl h
  | _ :: _, _ => List.getLast?_cons_cons ..

theorem getLast?_splitOnChar_append {c : Char} {t : List Char} (ht : c ∉ t) :
    ∀ s : List Char, (splitOnChar c (s ++ c :: t)).getLast? = some t
  | [] => by
    simp only [List.nil_append, splitOnChar, if_pos rfl]
    rw [splitOnChar_not_mem ht]
    rfl
  | x :: xs => by
    have ih := getLast?_splitOnChar_append ht xs
    by_cases hx : x = c
    · simp only [List.cons_append, splitOnChar, if_pos hx, List.append_eq]
      rw [getLast?_cons_ne_nil _ (splitOnChar_ne_nil c (xs ++ c :: t))]
      exact ih
    · simp only [List.cons_append, splitOnChar, if_neg hx, List.append_eq]
      rcases hsp : splitOnChar c (xs ++ c :: t) with _ | ⟨p, ps⟩
      · exact absurd hsp (splitOnChar_ne_nil c _)
      · rw [hsp] at ih
        have hlen : 2 ≤ (splitOnChar c (xs ++ c :: t)).length :=
          splitOnChar_length_two_le (by simp)
        rw [hsp] at hlen
        have hps : ps ≠ [] := by
          intro he
          rw [he] at hlen
          simp at hlen
        rw [getLast?_cons_ne_nil _ hps]
        rw [getLast?_cons_ne_nil _ hps] at ih
        exact ih

theorem removeMd_cons_ne {c : Char} (h : ¬ c = '.') :
    ∀ u : List Char, removeMd (c :: u) = c :: removeMd u
  | [] => rfl
  | [_] => rfl
  | d :: e :: u' => by
    simp only [removeMd]
    rw [if_neg (fun hcon => h hcon.1)]

theorem removeMd_append_left :
    ∀ {s : List Char}, '.' ∉ s → ∀ u : List Char,
      removeMd (s ++ u) = s ++ removeMd u
  | [], _, u => rfl
  | x :: xs, h, u => by
    have hx : ¬ x = '.' := fun he => h (he ▸ List.mem_cons_self x xs)
    have hxs : '.' ∉ xs := fun hm => h (List.mem_cons_of_mem _ hm)
    calc removeMd ((x :: xs) ++ u) = removeMd (x :: (xs ++ u)) := rfl
      _ = x :: removeMd (xs ++ u) := removeMd_cons_ne hx _
      _ = x :: (xs ++ removeMd u) := by rw [removeMd_append_left hxs u]
      _ = (x :: xs) ++ removeMd u := rfl

theorem removeMd_dot_cons {d : Char} (h : ¬ d = 'm') :
    ∀ u : List Char, removeMd ('.' :: d :: u) = '.' :: removeMd (d :: u)
  | [] => rfl
  | e :: u' => by
    simp only [removeMd]
    rw [if_neg (fun hcon => h hcon.2.1)]

theorem removeMd_md (u : List Char) :
    removeMd ('.' :: 'm' :: 'd' :: u) = removeMd u := by
  simp [removeMd]

theorem not_mem_of_all_digit {s : List Char} (h : s.all Char.isDigit = true)
    {c : Char} (hc : c.isDigit = false) : c ∉ s := by
  intro hm
  have := List.all_eq_true.mp h c hm
  rw [this] at hc
  cases hc

theorem removeMd_filename (tt ym : List Char) (n0 : Char) (num0 verN : List Char)
    (ht : '.' ∉ tt) (hym : '.' ∉ ym) (hn0m : ¬ n0 = 'm') (hn0d : ¬ n0 = '.')
    (hnum0 : '.' ∉ num0) (hN : '.' ∉ verN) :
    removeMd (tt ++ '_' :: (ym ++ '.' :: (n0 :: num0 ++ 'v' :: (verN ++ ['.', 'm', 'd'])))) =
      tt ++ '_' :: (ym ++ '.' :: (n0 :: num0 ++ 'v' :: verN)) := by
  rw [removeMd_append_left ht]
  rw [removeMd_cons_ne (by decide : ¬ ('_' : Char) = '.')]
  rw [removeMd_append_left hym]
  simp only [List.cons_append]
  rw [removeMd_dot_cons hn0m]
  rw [removeMd_cons_ne hn0d]
  rw [removeMd_append_left hnum0]
  rw [removeMd_cons_ne (by decide : ¬ ('v' : Char) = '.')]
  rw [removeMd_append_left hN]
  rw [removeMd_md]
  simp [removeMd]

theorem parseFilenameId_filename (tt ym num verN : List Char)
    (ht : '.' ∉ tt)
    (hym1 : ym ≠ []) (hym2 : ym.all Char.isDigit = true)
    (hnum1 : num ≠ []) (hnum2 : num.all Char.isDigit = true)
    (hN : verN.all Char.isDigit = true) :
    parseFilenameId (tt ++ '_' :: (ym ++ '.' :: (num ++ 'v' :: (verN ++ ['.', 'm', 'd'])))) =
      some (ym ++ '.' :: num) := by
  have hymdot : '.' ∉ ym := not_mem_of_all_digit hym2 (by decide)
  have hymv : 'v' ∉ ym := not_mem_of_all_digit hym2 (by decide)
  have hymus : '_' ∉ ym := not_mem_of_all_digit hym2 (by decide)
  have hnumdot : '.' ∉ num := not_mem_of_all_digit hnum2 (by decide)
  have hnumv : 'v' ∉ num := not_mem_of_all_digit hnum2 (by decide)
  have hnumus : '_' ∉ num := not_mem_of_all_digit hnum2 (by decide)
  have hNdot : '.' ∉ verN := not_mem_of_all_digit hN (by decide)
  have hNus : '_' ∉ verN := not_mem_of_all_digit hN (by decide)
  obtain ⟨n0, num0, rfl⟩ := List.exists_cons_of_ne_nil hnum1
  have hn0 : n0.isDigit = true := List.all_eq_true.mp hnum2 n0 (List.mem_cons_self _ _)
  have hn0m : ¬ n0 = 'm' := fun he => absurd (he ▸ hn0) (by decide)
  have hn0d : ¬ n0 = '.' := fun he => absurd (he ▸ hn0) (by decide)
  have hnum0dot : '.' ∉ num0 := fun hm => hnumdot (List.mem_cons_of_mem _ hm)
  have hnum0v : 'v' ∉ num0 := fun hm => hnumv (List.mem_cons_of_mem _ hm)
  have hpn_dot : '.' ∉ n0 :: num0 ++ 'v' :: verN := by
    intro hm
    rcases List.mem_cons.mp hm with he | hm'
    · exact hn0d he.symm
    · rcases List.mem_append.mp hm' with h | h
      · exact hnum0dot h
      · rcases List.mem_cons.mp h with he | h
        · exact absurd he (by decide)
        · exact hNdot h
  have hpn_v : 'v' ∉ (n0 :: num0 : List Char) := by
    intro hm
    rcases List.mem_cons.mp hm with he | hm'
    · exact absurd (he ▸ hn0) (by decide)
    · exact hnum0v hm'
  have hid1us : '_' ∉ ym ++ '.' :: (n0 :: num0 ++ 'v' :: verN) := by
    intro hm
    rcases List.mem_append.mp hm with h | h
    · exact hymus h
    · rcases List.mem_cons.mp h with he | h
      · exact absurd he (by decide)
      · rcases List.mem_cons.mp h with he | h
        · exact absurd (he ▸ hn0) (by decide)
        · rcases List.mem_append.mp h with h' | h'
          · exact hnumus (List.mem_cons_of_mem _ h')
          · rcases List.mem_cons.mp h' with he | h''
            · exact absurd he (by decide)
            · exact hNus h''
  have hsplitdot : splitOnChar '.' (ym ++ '.' :: (n0 :: num0 ++ 'v' :: verN)) =
      [ym, n0 :: num0 ++ 'v' :: verN] := by
    rw [splitOnChar_append_sep _ hymdot, splitOnChar_not_mem hpn_dot]
  have hdotmem : '.' ∈ ym ++ '.' :: (n0 :: num0 ++ 'v' :: verN) :=
    List.mem_append_right _ (List.mem_cons_self _ _)
  have hvmem : 'v' ∈ n0 :: num0 ++ 'v' :: verN :=
    List.mem_cons_of_mem _ (List.mem_append_right _ (List.mem_cons_self _ _))
  have hsplitv : splitOnChar 'v' (n0 :: num0 ++ 'v' :: verN) =
      (n0 :: num0) :: splitOnChar 'v' verN := by
    have := splitOnChar_append_sep (s := n0 :: num0) verN hpn_v
    simpa using this
  have hymE : ym.isEmpty = false := by
    cases ym with
    | nil => exact absurd rfl hym1
    | cons a as => rfl
  have hymAll := List.all_eq_true.mp hym2
  have hnumAll := List.all_eq_true.mp hnum2
  unfold parseFilenameId
  rw [removeMd_filename tt ym n0 num0 verN ht hymdot hn0m hn0d hnum0dot hNdot]
  rw [getLast?_splitOnChar_append hid1us tt]
  simp only [List.cons_append] at hsplitdot hsplitv hdotmem hvmem
  simp [hsplitdot, hsplitv, hdotmem, hvmem, pyIntOk, hym1, hymAll, hnumAll]
  exact ⟨hymAll, fun x hx => hnumAll x (List.mem_cons_of_mem _ hx)⟩

/-- Claim C5: version folding.  For arXiv ids of the standard
`YYMM.NNNNN` shape, once an article file for version `verN` of a paper has
been recorded (named `f"{safe_title}_{id}.md"`, where a safe title never
contains a dot), `is_paper_already_processed` answers `true` for every
other version `verM` of the same base id: both versions are normalized by
stripping the part after the first `v`, so they map to the same history
key. -/
theorem c5_version_folding (tt ym num verN verM : List Char)
    (pre post : List (List Char))
    (ht : '.' ∉ tt)
    (hym1 : ym ≠ []) (hym2 : ym.all Char.isDigit = true)
    (hnum1 : num ≠ []) (hnum2 : num.all Char.isDigit = true)
    (hN : verN.all Char.isDigit = true) :
    isPaperAlreadyProcessed
      (pre ++ (tt ++ '_' :: (ym ++ '.' :: (num ++ 'v' :: (verN ++ ['.', 'm', 'd'])))) :: post)
      (ym ++ '.' :: (num ++ 'v' :: verM)) = true := by
  have hymv : 'v' ∉ ym := not_mem_of_all_digit hym2 (by decide)
  have hnumv : 'v' ∉ num := not_mem_of_all_digit hnum2 (by decide)
  have hbase_v : 'v' ∉ ym ++ '.' :: num := by
    intro hm
    rcases List.mem_append.mp hm with h | h
    · exact hymv h
    · rcases List.mem_cons.mp h with he | h
      · exact absurd he (by decide)
      · exact hnumv h
  have hsplit : splitOnChar 'v' (ym ++ '.' :: (num ++ 'v' :: verM)) =
      (ym ++ '.' :: num) :: splitOnChar 'v' verM := by
    have heq : ym ++ '.' :: (num ++ 'v' :: verM) = (ym ++ '.' :: num) ++ 'v' :: verM := by
      simp
    rw [heq, splitOnChar_append_sep _ hbase_v]
  unfold isPaperAlreadyProcessed
  rw [hsplit]
  apply decide_eq_true
  simp only [List.headD_cons]
  show (ym ++ '.' :: num) ∈ List.filterMap parseFilenameId _
  exact List.mem_filterMap.mpr
    ⟨tt ++ '_' :: (ym ++ '.' :: (num ++ 'v' :: (verN ++ ['.', 'm', 'd']))),
     by simp,
     parseFilenameId_filename tt ym num verN ht hym1 hym2 hnum1 hnum2 hN⟩

theorem c5_version_folding_witness :
    ('.' ∉ ("VideoITG".toList)) ∧
    ("2507".toList ≠ []) ∧ (("2507".toList).all Char.isDigit = true) ∧
    ("13353".toList ≠ []) ∧ (("13353".toList).all Char.isDigit = true) ∧
    (("1".toList).all Char.isDigit = true) ∧
    isPaperAlreadyProcessed
      [("VideoITG".toList ++ '_' ::
        ("2507".toList ++ '.' :: ("13353".toList ++ 'v' :: ("1".toList ++ ['.', 'm', 'd']))))]
      ("2507".toList ++ '.' :: ("13353".toList ++ 'v' :: "2".toList)) = true :=
  ⟨by decide, by decide, by decide, by decide, by decide, by decide,
   by
    have h := c5_version_folding "VideoITG".toList "2507".toList "13353".toList
      "1".toList "2".toList [] [] (by decide) (by decide) (by decide) (by decide)
      (by decide) (by decide)
    simpa using h⟩
